import Mathlib

/-!
Verification of the `cansignal` synthetic data source
(`extensions/sources/cansignal/cansignal.go`).

The file gives a shallow embedding of the plugin's pure logic:

* `parseInt32`, `parseInt64`, `parseUint32`, `parseUint64`, `parseFloatQ`
  model the `strconv.ParseInt/ParseUint/ParseFloat` calls the source makes
  (base-10 decimal literals with the bit-width range checks; the float
  parser covers the plain decimal forms, exponent/hex/inf forms are not
  needed by any claim, which only quantify over successful parses).
* `randomize` is the type dispatch of the Go `randomize` function.  Machine
  integers are modelled as `Int`/`Nat` with explicit two's-complement wrap
  (`wrap32`, `wrap64`) and explicit `% 2^w` reductions exactly where the Go
  arithmetic wraps.  Floats are modelled as exact rationals.  The single
  value the source draws from the process-wide generator (`rand.Int31n`,
  `rand.Int63n`, `rand.Uint32`, `rand.Uint64`, `rand.Float32`,
  `rand.Float64` — exactly one call per `randomize` invocation) is made
  explicit as a `draw : Nat` argument; a bounded draw `k` of Go is
  recovered as `draw % k`, which ranges over exactly the values the Go
  generator can return.  A Go runtime panic (`rand.Int31n`/`rand.Int63n`
  with non-positive argument, modulus by zero for the unsigned cases) is
  the explicit result `RandResult.panics`.
* `Configure` is the validation loop of the Go `Configure` method, run on a
  configuration that the external `cast.MapToStruct` decoder (out of scope
  per the design) has already produced.  Note the bound check
  `v.MaxValuePhy < v.MinValuePhy` is a comparison of the raw strings, as in
  the Go source (Go compares strings byte-wise lexicographically; for the
  ASCII literals involved Lean's `String` order coincides).
* `emissionTick` is the body of the cyclic-ticker `select` case of `Open`,
  parameterised by the outcome of the external `json.Unmarshal` call: on a
  decode error the Go code logs a warning and falls through — with no
  `return` or `continue` — to the `consumer <-` send of the still-empty
  map, and the `for`/`select` loop then continues.
* `openInitialStores` is the slot-store loop of `Open`: the Go code
  allocates `make([][]byte, 100)` (a fixed length of 100 irrespective of
  the number of configured signals), sets `s.list[0] = []byte{}`, and then
  stores `s.list[k] = ns` for the k-th signal; an index `k ≥ 100` is an
  out-of-bounds store (a Go runtime panic), modelled as `none`.
* `Close` is the Go `Close` method, which does nothing and returns `nil`.
-/

namespace CanSignal

/-! ## Decimal parsing (model of the strconv calls) -/

/-- Value of a decimal digit string, most significant digit first
(`strconv` accumulates base-10 digits this way). -/
def digitsToNat (cs : List Char) : Nat :=
  cs.foldl (fun acc c => acc * 10 + (c.toNat - 48)) 0

/-- A non-empty all-digit character list parses to its value; anything else
is a syntax error (`strconv` base-10 accepts only digits). -/
def parseNatDec (cs : List Char) : Option Nat :=
  if cs ≠ [] ∧ cs.all (fun c => c.isDigit) then some (digitsToNat cs) else none

/-- Signed decimal literal: optional leading sign then digits, as accepted
by `strconv.ParseInt` in base 10. -/
def parseDec (s : String) : Option Int :=
  match s.data with
  | '-' :: rest => (parseNatDec rest).map (fun n => -(n : Int))
  | '+' :: rest => (parseNatDec rest).map (fun n => (n : Int))
  | cs => (parseNatDec cs).map (fun n => (n : Int))

/-- `strconv.ParseInt(s, 10, 32)`: out-of-range values are errors. -/
def parseInt32 (s : String) : Option Int :=
  (parseDec s).bind (fun n =>
    if -2147483648 ≤ n ∧ n ≤ 2147483647 then some n else none)

/-- `strconv.ParseInt(s, 10, 64)`. -/
def parseInt64 (s : String) : Option Int :=
  (parseDec s).bind (fun n =>
    if -9223372036854775808 ≤ n ∧ n ≤ 9223372036854775807 then some n else none)

/-- `strconv.ParseUint(s, 10, 32)`: no sign is accepted. -/
def parseUint32 (s : String) : Option Nat :=
  (parseNatDec s.data).bind (fun n => if n ≤ 4294967295 then some n else none)

/-- `strconv.ParseUint(s, 10, 64)`. -/
def parseUint64 (s : String) : Option Nat :=
  (parseNatDec s.data).bind (fun n => if n ≤ 18446744073709551615 then some n else none)

/-- Mantissa of a decimal float literal: digits, optionally a point and
more digits, at least one digit overall, valued exactly as a rational. -/
def parseMantissa (cs : List Char) : Option ℚ :=
  let ip := cs.takeWhile (fun c => c.isDigit)
  let rest := cs.dropWhile (fun c => c.isDigit)
  match rest with
  | [] => if ip = [] then none else some (digitsToNat ip : ℚ)
  | '.' :: frac =>
    if frac.all (fun c => c.isDigit) ∧ (ip ≠ [] ∨ frac ≠ []) then
      some ((digitsToNat ip : ℚ) + (digitsToNat frac : ℚ) / (10 : ℚ) ^ frac.length)
    else none
  | _ => none

/-- `strconv.ParseFloat` on the plain decimal forms, with the value taken
exactly (floats modelled as rationals, so no rounding step). -/
def parseFloatQ (s : String) : Option ℚ :=
  match s.data with
  | '-' :: rest => (parseMantissa rest).map (fun q => -q)
  | '+' :: rest => parseMantissa rest
  | cs => parseMantissa cs

/-! ## Machine-integer wrap -/

/-- Two's-complement wrap of an integer into the `int32` range, modelling
Go `int32` overflow on `-` and `+`. -/
def wrap32 (x : Int) : Int :=
  (x + 2147483648) % 4294967296 - 2147483648

/-- Two's-complement wrap into the `int64` range. -/
def wrap64 (x : Int) : Int :=
  (x + 9223372036854775808) % 18446744073709551616 - 9223372036854775808

/-! ## The randomizer -/

/-- A value stored under the signal's name: the six numeric kinds the
source can produce (`int32`/`int64` carried as `Int`, the unsigned kinds
as `Nat`, the float kinds as exact rationals). -/
inductive SigValue where
  | i32 (v : Int)
  | i64 (v : Int)
  | u32 (v : Nat)
  | u64 (v : Nat)
  | f32 (v : ℚ)
  | f64 (v : ℚ)
deriving DecidableEq

/-- Outcome of one `randomize` call: the single-entry mapping
`{name: value}` (the Go function fills exactly one key), a bound-parse
error, a runtime panic, or the default-branch unknown-data-type error. -/
inductive RandResult where
  | ok (entry : String × SigValue)
  | parseError
  | panics
  | unsupported (dataType : String)
deriving DecidableEq

/-- `case "int32", "sint32"`: Go computes
`rand.Int31n(int32(maxValue)-int32(minValue)) + int32(minValue)`.
The subtraction and the addition wrap in `int32`; `rand.Int31n(n)`
panics for `n ≤ 0` and otherwise returns a value in `[0, n)`, modelled
as `draw % n`. -/
def randInt32 (draw : Nat) (name minS maxS : String) : RandResult :=
  match parseInt32 minS with
  | none => RandResult.parseError
  | some minValue =>
    match parseInt32 maxS with
    | none => RandResult.parseError
    | some maxValue =>
      let n := wrap32 (maxValue - minValue)
      if n ≤ 0 then RandResult.panics
      else RandResult.ok (name, SigValue.i32 (wrap32 ((draw % n.toNat : Nat) + minValue)))

/-- `case "int64"`: `rand.Int63n(maxValue-minValue) + minValue`, with
`int64` wrap and the `n ≤ 0` panic of `rand.Int63n`. -/
def randInt64 (draw : Nat) (name minS maxS : String) : RandResult :=
  match parseInt64 minS with
  | none => RandResult.parseError
  | some minValue =>
    match parseInt64 maxS with
    | none => RandResult.parseError
    | some maxValue =>
      let n := wrap64 (maxValue - minValue)
      if n ≤ 0 then RandResult.panics
      else RandResult.ok (name, SigValue.i64 (wrap64 ((draw % n.toNat : Nat) + minValue)))

/-- `case "uint32"`: `rand.Uint32()%uint32(maxValue-minValue) + uint32(minValue)`.
The subtraction happens in `uint64` (wrapping mod `2^64`), is truncated to
`uint32` (mod `2^32`); a zero modulus is a runtime divide-by-zero panic;
the final addition wraps in `uint32`. -/
def randUint32 (draw : Nat) (name minS maxS : String) : RandResult :=
  match parseUint32 minS with
  | none => RandResult.parseError
  | some minValue =>
    match parseUint32 maxS with
    | none => RandResult.parseError
    | some maxValue =>
      let d := ((maxValue + 18446744073709551616 - minValue) % 18446744073709551616) % 4294967296
      if d = 0 then RandResult.panics
      else RandResult.ok (name, SigValue.u32 ((draw % 4294967296 % d + minValue) % 4294967296))

/-- `case "uint64"`: `rand.Uint64()%(maxValue-minValue) + minValue`, all in
`uint64` arithmetic, with the zero-modulus panic. -/
def randUint64 (draw : Nat) (name minS maxS : String) : RandResult :=
  match parseUint64 minS with
  | none => RandResult.parseError
  | some minValue =>
    match parseUint64 maxS with
    | none => RandResult.parseError
    | some maxValue =>
      let d := (maxValue + 18446744073709551616 - minValue) % 18446744073709551616
      if d = 0 then RandResult.panics
      else RandResult.ok (name, SigValue.u64 ((draw % 18446744073709551616 % d + minValue) % 18446744073709551616))

/-- `case "float", "float32"`:
`rand.Float32()*float32(maxValue-minValue) + float32(minValue)`.
`rand.Float32()` draws from `{k/2^24 : 0 ≤ k < 2^24}`; the arithmetic is
taken exactly over `ℚ`. -/
def randFloat32 (draw : Nat) (name minS maxS : String) : RandResult :=
  match parseFloatQ minS with
  | none => RandResult.parseError
  | some minValue =>
    match parseFloatQ maxS with
    | none => RandResult.parseError
    | some maxValue =>
      RandResult.ok (name,
        SigValue.f32 (((draw % 16777216 : Nat) : ℚ) / 16777216 * (maxValue - minValue) + minValue))

/-- `case "double", "float64"`:
`rand.Float64()*(maxValue-minValue) + minValue`, with `rand.Float64()`
drawing from `{k/2^53 : 0 ≤ k < 2^53}`, taken exactly over `ℚ`. -/
def randFloat64 (draw : Nat) (name minS maxS : String) : RandResult :=
  match parseFloatQ minS with
  | none => RandResult.parseError
  | some minValue =>
    match parseFloatQ maxS with
    | none => RandResult.parseError
    | some maxValue =>
      RandResult.ok (name,
        SigValue.f64 (((draw % 9007199254740992 : Nat) : ℚ) / 9007199254740992 * (maxValue - minValue) + minValue))

/-- The Go `randomize(name, dataType, minValuePhy, maxValuePhy)` switch, in
source order: the two-label cases of the Go `switch` become disjunctions,
and the `default` branch is the `unkonw data type` error. -/
def randomize (draw : Nat) (name dataType minValuePhy maxValuePhy : String) : RandResult :=
  if dataType = "int32" ∨ dataType = "sint32" then randInt32 draw name minValuePhy maxValuePhy
  else if dataType = "int64" then randInt64 draw name minValuePhy maxValuePhy
  else if dataType = "uint32" then randUint32 draw name minValuePhy maxValuePhy
  else if dataType = "uint64" then randUint64 draw name minValuePhy maxValuePhy
  else if dataType = "float" ∨ dataType = "float32" then randFloat32 draw name minValuePhy maxValuePhy
  else if dataType = "double" ∨ dataType = "float64" then randFloat64 draw name minValuePhy maxValuePhy
  else RandResult.unsupported dataType

/-! ## Configuration and its validation -/

/-- Lexicographic order on character lists, comparing code points in
order: `a < b` iff `a` is a proper prefix of `b` or they differ first at a
position where `a`'s character is smaller. -/
def charListLt : List Char → List Char → Bool
  | [], [] => false
  | [], _ :: _ => true
  | _ :: _, [] => false
  | a :: as, b :: bs =>
    if a.toNat < b.toNat then true
    else if b.toNat < a.toNat then false
    else charListLt as bs

/-- Go's `<` on strings: byte-wise lexicographic comparison of the UTF-8
encodings, which orders strings exactly as code-point-wise comparison of
their characters (UTF-8 preserves code-point order). -/
def goStringLt (a b : String) : Bool :=
  charListLt a.data b.data

/-- The Go `canSignal` struct: one signal's configuration. -/
structure canSignal where
  Name : String
  DataType : String
  MinValuePhy : String
  MaxValuePhy : String
  CyclicTime : Int
  ChangeTime : Int
deriving DecidableEq

/-- The Go `canSignalSourceConfig` struct. -/
structure canSignalSourceConfig where
  Signal : List canSignal
deriving DecidableEq

/-- Outcome of `Configure`: `nil` or an error (a `ConfigError` in the
design's taxonomy). -/
inductive ConfigResult where
  | ok
  | err (msg : String)
deriving DecidableEq

/-- The validation loop of the Go `Configure` method, checking each signal
in order: `CyclicTime <= 0`, then `ChangeTime < 0`, then
`MaxValuePhy < MinValuePhy` — the last one a comparison of the raw strings
exactly as in the source. -/
def validateSignals : List canSignal → ConfigResult
  | [] => ConfigResult.ok
  | v :: rest =>
    if v.CyclicTime ≤ 0 then
      ConfigResult.err ("property cyclicTime must be a positive integer: " ++ v.Name)
    else if v.ChangeTime < 0 then
      ConfigResult.err ("property changeTime must be a positive integer or zero: " ++ v.Name)
    else if goStringLt v.MaxValuePhy v.MinValuePhy then
      ConfigResult.err ("property maxValuePhy must be greater than minValuePhy: " ++ v.Name)
    else validateSignals rest

/-- The Go `Configure` method on a configuration the external decoder has
already produced (the `cast.MapToStruct` step is an out-of-scope
collaborator; every claim about `Configure` presumes it succeeded).  The
assignment `s.conf = cfg` on success carries no information any claim
needs and is omitted. -/
def Configure (cfg : canSignalSourceConfig) : ConfigResult :=
  validateSignals cfg.Signal

/-! ## The emission tick -/

/-- The decoded payload of one stored slot: a mapping from names to
values (the slot is the JSON encoding of such a map). -/
abbrev Payload := List (String × SigValue)

/-- Observable behaviour of one cyclic-ticker tick of the emission
goroutine: whether the warning was logged, what was sent on the consumer
channel, and whether the loop proceeds to the next tick. -/
structure EmitTick where
  warned : Bool
  emitted : Option Payload
  continues : Bool
deriving DecidableEq

/-- Body of the `case <-cyclicT.C:` branch of the emission goroutine in
`Open`, parameterised by the outcome of the external `json.Unmarshal` call
on the stored slot bytes.  In the Go source, `next` starts as the empty
map; when `json.Unmarshal` fails the code logs a warning and — with no
`return` or `continue` in that branch — falls through to
`consumer <- api.NewDefaultSourceTuple(next, nil)`, sending the still-empty
map, and the enclosing `for`/`select` loop continues either way. -/
def emissionTick (decodeResult : Except String Payload) : EmitTick :=
  match decodeResult with
  | Except.error _ => { warned := true, emitted := some [], continues := true }
  | Except.ok next => { warned := false, emitted := some next, continues := true }

/-! ## Open's slot stores and Close -/

/-- The Go `canSignalSource` struct (slots held as byte lists). -/
structure canSignalSource where
  conf : Option canSignalSourceConfig
  list : List (List Nat)

/-- One store `s.list[k] = v`: in Go an index `k ≥ len(s.list)` is an
out-of-bounds runtime panic, modelled as `none`. -/
def storeAt (l : List (List Nat)) (k : Nat) (v : List Nat) : Option (List (List Nat)) :=
  if k < l.length then some (l.set k v) else none

/-- Successive stores `s.list[k] = vals[0]`, `s.list[k+1] = vals[1]`, …,
stopping at the first out-of-bounds panic. -/
def storeAll (l : List (List Nat)) (k : Nat) : List (List Nat) → Option (List (List Nat))
  | [] => some l
  | v :: rest =>
    match storeAt l k v with
    | none => none
    | some l2 => storeAll l2 (k + 1) rest

/-- The slot-store part of `Open`: Go allocates `make([][]byte, 100)` — a
fixed length of 100 regardless of the number of configured signals — sets
`s.list[0] = []byte{}`, and then stores the k-th signal's encoded initial
value at index k. -/
def openInitialStores (encodedValues : List (List Nat)) : Option (List (List Nat)) :=
  storeAll ((List.replicate 100 ([] : List Nat)).set 0 []) 0 encodedValues

/-- The Go `Close` method: its body is `return nil`; it reads and writes no
state. -/
def Close (s : canSignalSource) : canSignalSource × Option String :=
  (s, none)

/-! ## Statement-side helpers (readings of the spec's phrases) -/

/-- The spec's "parsed bounds" of an integer-typed signal: the pair of
bound values under the same `strconv` calls the matching `randomize`
branch makes, with unsigned values read into `Int`. -/
def parsedIntBounds (dt minS maxS : String) : Option (Int × Int) :=
  if dt = "int32" ∨ dt = "sint32" then
    (parseInt32 minS).bind (fun a => (parseInt32 maxS).map (fun b => (a, b)))
  else if dt = "int64" then
    (parseInt64 minS).bind (fun a => (parseInt64 maxS).map (fun b => (a, b)))
  else if dt = "uint32" then
    (parseUint32 minS).bind (fun a => (parseUint32 maxS).map (fun (b : Nat) => ((a : Int), (b : Int))))
  else if dt = "uint64" then
    (parseUint64 minS).bind (fun a => (parseUint64 maxS).map (fun (b : Nat) => ((a : Int), (b : Int))))
  else none

/-- The range width `max - min` fits the declared signed type (for the
unsigned types `min < max` already rules the wrap out). -/
abbrev intWidthOk (dt : String) (a b : Int) : Prop :=
  (dt = "int32" ∨ dt = "sint32" → b - a ≤ 2147483647) ∧
  (dt = "int64" → b - a ≤ 9223372036854775807)

/-- The constructor the matching `randomize` branch stores its value
under. -/
def mkIntVal (dt : String) (v : Int) : SigValue :=
  if dt = "int32" ∨ dt = "sint32" then SigValue.i32 v
  else if dt = "int64" then SigValue.i64 v
  else if dt = "uint32" then SigValue.u32 v.toNat
  else SigValue.u64 v.toNat

/-- Ditto for the float branches. -/
def mkFloatVal (dt : String) (v : ℚ) : SigValue :=
  if dt = "float" ∨ dt = "float32" then SigValue.f32 v else SigValue.f64 v

/-- The nine dataType strings the Go `switch` accepts. -/
def acceptedDataTypes : List String :=
  ["int32", "sint32", "int64", "uint32", "uint64", "float", "float32", "double", "float64"]

/-- The six kinds the spec's data-model enumerates. -/
def enumeratedSixKinds : List String :=
  ["int32", "int64", "uint32", "uint64", "float32", "float64"]

/-! ## Range facts about the parsers and the wraps -/

lemma parseInt32_range {s : String} {v : Int} (h : parseInt32 s = some v) :
    -2147483648 ≤ v ∧ v ≤ 2147483647 := by
  unfold parseInt32 at h
  rw [Option.bind_eq_some] at h
  obtain ⟨n, _, h⟩ := h
  split_ifs at h with hr
  cases h; exact hr

lemma parseInt64_range {s : String} {v : Int} (h : parseInt64 s = some v) :
    -9223372036854775808 ≤ v ∧ v ≤ 9223372036854775807 := by
  unfold parseInt64 at h
  rw [Option.bind_eq_some] at h
  obtain ⟨n, _, h⟩ := h
  split_ifs at h with hr
  cases h; exact hr

lemma parseUint32_range {s : String} {v : Nat} (h : parseUint32 s = some v) :
    v ≤ 4294967295 := by
  unfold parseUint32 at h
  rw [Option.bind_eq_some] at h
  obtain ⟨n, _, h⟩ := h
  split_ifs at h with hr
  cases h; exact hr

lemma parseUint64_range {s : String} {v : Nat} (h : parseUint64 s = some v) :
    v ≤ 18446744073709551615 := by
  unfold parseUint64 at h
  rw [Option.bind_eq_some] at h
  obtain ⟨n, _, h⟩ := h
  split_ifs at h with hr
  cases h; exact hr

lemma wrap32_id {x : Int} (h1 : -2147483648 ≤ x) (h2 : x ≤ 2147483647) :
    wrap32 x = x := by
  unfold wrap32; omega

lemma wrap64_id {x : Int} (h1 : -9223372036854775808 ≤ x) (h2 : x ≤ 9223372036854775807) :
    wrap64 x = x := by
  unfold wrap64; omega

/-! ## What each randomizer branch produces on an in-range request -/

lemma randInt32_spec (draw : Nat) (name minS maxS : String) {a b : Int}
    (ha : parseInt32 minS = some a) (hb : parseInt32 maxS = some b)
    (hlt : a < b) (hw : b - a ≤ 2147483647) :
    ∃ v : Int, a ≤ v ∧ v < b ∧
      randInt32 draw name minS maxS = RandResult.ok (name, SigValue.i32 v) := by
  obtain ⟨ha1, ha2⟩ := parseInt32_range ha
  obtain ⟨hb1, hb2⟩ := parseInt32_range hb
  have hn : wrap32 (b - a) = b - a := wrap32_id (by omega) (by omega)
  have hmod : draw % (b - a).toNat < (b - a).toNat := Nat.mod_lt _ (by omega)
  refine ⟨((draw % (b - a).toNat : Nat) : Int) + a, by omega, by omega, ?_⟩
  simp only [randInt32, ha, hb]
  rw [hn, if_neg (by omega), wrap32_id (by omega) (by omega)]

lemma randInt64_spec (draw : Nat) (name minS maxS : String) {a b : Int}
    (ha : parseInt64 minS = some a) (hb : parseInt64 maxS = some b)
    (hlt : a < b) (hw : b - a ≤ 9223372036854775807) :
    ∃ v : Int, a ≤ v ∧ v < b ∧
      randInt64 draw name minS maxS = RandResult.ok (name, SigValue.i64 v) := by
  obtain ⟨ha1, ha2⟩ := parseInt64_range ha
  obtain ⟨hb1, hb2⟩ := parseInt64_range hb
  have hn : wrap64 (b - a) = b - a := wrap64_id (by omega) (by omega)
  have hmod : draw % (b - a).toNat < (b - a).toNat := Nat.mod_lt _ (by omega)
  refine ⟨((draw % (b - a).toNat : Nat) : Int) + a, by omega, by omega, ?_⟩
  simp only [randInt64, ha, hb]
  rw [hn, if_neg (by omega), wrap64_id (by omega) (by omega)]

lemma randUint32_spec (draw : Nat) (name minS maxS : String) {a b : Nat}
    (ha : parseUint32 minS = some a) (hb : parseUint32 maxS = some b) (hlt : a < b) :
    ∃ w : Nat, a ≤ w ∧ w < b ∧
      randUint32 draw name minS maxS = RandResult.ok (name, SigValue.u32 w) := by
  have ha2 := parseUint32_range ha
  have hb2 := parseUint32_range hb
  have hd : ((b + 18446744073709551616 - a) % 18446744073709551616) % 4294967296 = b - a := by
    omega
  have hmod : draw % 4294967296 % (b - a) < b - a := Nat.mod_lt _ (by omega)
  refine ⟨draw % 4294967296 % (b - a) + a, by omega, by omega, ?_⟩
  simp only [randUint32, ha, hb]
  rw [hd, if_neg (by omega), Nat.mod_eq_of_lt (by omega)]

lemma randUint64_spec (draw : Nat) (name minS maxS : String) {a b : Nat}
    (ha : parseUint64 minS = some a) (hb : parseUint64 maxS = some b) (hlt : a < b) :
    ∃ w : Nat, a ≤ w ∧ w < b ∧
      randUint64 draw name minS maxS = RandResult.ok (name, SigValue.u64 w) := by
  have ha2 := parseUint64_range ha
  have hb2 := parseUint64_range hb
  have hd : (b + 18446744073709551616 - a) % 18446744073709551616 = b - a := by omega
  have hmod : draw % 18446744073709551616 % (b - a) < b - a := Nat.mod_lt _ (by omega)
  refine ⟨draw % 18446744073709551616 % (b - a) + a, by omega, by omega, ?_⟩
  simp only [randUint64, ha, hb]
  rw [hd, if_neg (by omega), Nat.mod_eq_of_lt (by omega)]

lemma randFloat32_spec (draw : Nat) (name minS maxS : String) {mn mx : ℚ}
    (hmin : parseFloatQ minS = some mn) (hmax : parseFloatQ maxS = some mx) (hlt : mn < mx) :
    ∃ u v : ℚ, 0 ≤ u ∧ u < 1 ∧ v = mn + u * (mx - mn) ∧ mn ≤ v ∧ v < mx ∧
      randFloat32 draw name minS maxS = RandResult.ok (name, SigValue.f32 v) := by
  have hu0 : (0 : ℚ) ≤ ((draw % 16777216 : Nat) : ℚ) / 16777216 := by positivity
  have hu1 : ((draw % 16777216 : Nat) : ℚ) / 16777216 < 1 := by
    rw [div_lt_one (by norm_num)]
    exact_mod_cast Nat.mod_lt _ (by norm_num)
  refine ⟨((draw % 16777216 : Nat) : ℚ) / 16777216,
    ((draw % 16777216 : Nat) : ℚ) / 16777216 * (mx - mn) + mn,
    hu0, hu1, by ring, ?_, ?_, ?_⟩
  · nlinarith
  · nlinarith
  · simp only [randFloat32, hmin, hmax]

lemma randFloat64_spec (draw : Nat) (name minS maxS : String) {mn mx : ℚ}
    (hmin : parseFloatQ minS = some mn) (hmax : parseFloatQ maxS = some mx) (hlt : mn < mx) :
    ∃ u v : ℚ, 0 ≤ u ∧ u < 1 ∧ v = mn + u * (mx - mn) ∧ mn ≤ v ∧ v < mx ∧
      randFloat64 draw name minS maxS = RandResult.ok (name, SigValue.f64 v) := by
  have hu0 : (0 : ℚ) ≤ ((draw % 9007199254740992 : Nat) : ℚ) / 9007199254740992 := by positivity
  have hu1 : ((draw % 9007199254740992 : Nat) : ℚ) / 9007199254740992 < 1 := by
    rw [div_lt_one (by norm_num)]
    exact_mod_cast Nat.mod_lt _ (by norm_num)
  refine ⟨((draw % 9007199254740992 : Nat) : ℚ) / 9007199254740992,
    ((draw % 9007199254740992 : Nat) : ℚ) / 9007199254740992 * (mx - mn) + mn,
    hu0, hu1, by ring, ?_, ?_, ?_⟩
  · nlinarith
  · nlinarith
  · simp only [randFloat64, hmin, hmax]

/-! ## No typed branch reaches the default case -/

lemma randInt32_ne_unsupported (draw : Nat) (name minS maxS d : String) :
    randInt32 draw name minS maxS ≠ RandResult.unsupported d := by
  unfold randInt32
  split
  · simp
  · split
    · simp
    · dsimp only
      split <;> simp

lemma randInt64_ne_unsupported (draw : Nat) (name minS maxS d : String) :
    randInt64 draw name minS maxS ≠ RandResult.unsupported d := by
  unfold randInt64
  split
  · simp
  · split
    · simp
    · dsimp only
      split <;> simp

lemma randUint32_ne_unsupported (draw : Nat) (name minS maxS d : String) :
    randUint32 draw name minS maxS ≠ RandResult.unsupported d := by
  unfold randUint32
  split
  · simp
  · split
    · simp
    · dsimp only
      split <;> simp

lemma randUint64_ne_unsupported (draw : Nat) (name minS maxS d : String) :
    randUint64 draw name minS maxS ≠ RandResult.unsupported d := by
  unfold randUint64
  split
  · simp
  · split
    · simp
    · dsimp only
      split <;> simp

lemma randFloat32_ne_unsupported (draw : Nat) (name minS maxS d : String) :
    randFloat32 draw name minS maxS ≠ RandResult.unsupported d := by
  unfold randFloat32
  split
  · simp
  · split <;> simp

lemma randFloat64_ne_unsupported (draw : Nat) (name minS maxS d : String) :
    randFloat64 draw name minS maxS ≠ RandResult.unsupported d := by
  unfold randFloat64
  split
  · simp
  · split <;> simp

/-! ## What the validation loop accepts -/

lemma validateSignals_mem_ok {l : List canSignal} (h : validateSignals l = ConfigResult.ok) :
    ∀ v ∈ l, 0 < v.CyclicTime ∧ 0 ≤ v.ChangeTime ∧
      goStringLt v.MaxValuePhy v.MinValuePhy = false := by
  induction l with
  | nil => intro v hv; cases hv
  | cons w rest ih =>
    intro v hv
    simp only [validateSignals] at h
    split_ifs at h with hc1 hc2 hc3
    rcases List.mem_cons.mp hv with rfl | hv2
    · exact ⟨by omega, by omega, by simpa using hc3⟩
    · exact ih h v hv2

lemma validateSignals_ok_of {l : List canSignal}
    (h : ∀ v ∈ l, 0 < v.CyclicTime ∧ 0 ≤ v.ChangeTime ∧
      goStringLt v.MaxValuePhy v.MinValuePhy = false) :
    validateSignals l = ConfigResult.ok := by
  induction l with
  | nil => rfl
  | cons w rest ih =>
    obtain ⟨h1, h2, h3⟩ := h w (List.mem_cons_self w rest)
    simp only [validateSignals]
    rw [if_neg (by omega), if_neg (by omega), if_neg (by simp [h3])]
    exact ih (fun v hv => h v (List.mem_cons_of_mem w hv))

/-! ## How many slots the Open stores can reach -/

lemma storeAll_isSome_iff (vals : List (List Nat)) :
    ∀ (l : List (List Nat)) (k : Nat),
      (storeAll l k vals).isSome = true ↔ (vals.length = 0 ∨ k + vals.length ≤ l.length) := by
  induction vals with
  | nil => intro l k; simp [storeAll]
  | cons v rest ih =>
    intro l k
    by_cases h : k < l.length
    · have hs : storeAll l k (v :: rest) = storeAll (l.set k v) (k + 1) rest := by
        simp [storeAll, storeAt, h]
      rw [hs, ih]
      simp only [List.length_set, List.length_cons]
      omega
    · have hs : storeAll l k (v :: rest) = none := by
        simp [storeAll, storeAt, h]
      rw [hs]
      simp only [Option.isSome_none, Bool.false_eq_true, false_iff, List.length_cons]
      omega

/-! ## Concrete configurations used as inputs -/

/-- One-signal configuration whose bounds are numerically out of order
(`min = 10 > 9 = max`) but lexicographically in order (`"9" < "10"` is
false byte-wise). -/
def cfgNumericallyInverted : canSignalSourceConfig :=
  ⟨[{ Name := "s", DataType := "int32", MinValuePhy := "10", MaxValuePhy := "9",
      CyclicTime := 1000, ChangeTime := 0 }]⟩

/-- One-signal configuration whose bounds are numerically in order
(`2 < 10`) but lexicographically inverted (`"10" < "2"` byte-wise). -/
def cfgNumericallyOrdered : canSignalSourceConfig :=
  ⟨[{ Name := "s", DataType := "int32", MinValuePhy := "2", MaxValuePhy := "10",
      CyclicTime := 1000, ChangeTime := 0 }]⟩

/-- One-signal configuration with `cyclicTime = 0`. -/
def cfgZeroCyclic : canSignalSourceConfig :=
  ⟨[{ Name := "a", DataType := "int32", MinValuePhy := "0", MaxValuePhy := "9",
      CyclicTime := 0, ChangeTime := 0 }]⟩

/-- One-signal valid configuration with `changeTime = 0`. -/
def cfgZeroChange : canSignalSourceConfig :=
  ⟨[{ Name := "a", DataType := "int32", MinValuePhy := "0", MaxValuePhy := "9",
      CyclicTime := 1000, ChangeTime := 0 }]⟩

/-- One-signal configuration with `changeTime = -1`. -/
def cfgNegChange : canSignalSourceConfig :=
  ⟨[{ Name := "a", DataType := "int32", MinValuePhy := "0", MaxValuePhy := "9",
      CyclicTime := 1000, ChangeTime := -1 }]⟩

/-! ## The claims -/

/-- C1: the claim reads `Configure` as comparing the bounds as parsed
numbers of the declared type; the source compares the raw strings
byte-wise.  At `minValuePhy = "10"`, `maxValuePhy = "9"` (numerically
`9 < 10`, so the claim demands a `ConfigError`) `Configure` succeeds, and
at the numerically ordered `minValuePhy = "2"`, `maxValuePhy = "10"` (the
claim demands success) `Configure` fails — both read off the byte-wise
comparison the source performs. -/
theorem configure_lexicographic_bug :
    (Configure cfgNumericallyInverted = ConfigResult.ok ∧
      parseInt32 ("10") = some 10 ∧ parseInt32 ("9") = some 9 ∧ (9 : Int) < 10) ∧
    (Configure cfgNumericallyOrdered ≠ ConfigResult.ok ∧
      parseInt32 ("2") = some 2 ∧ parseInt32 ("10") = some 10 ∧ (2 : Int) < 10) := by
  decide

/-- C2: the claim demands that `randomize` on an integer-typed signal with
`min = max` never panics (it should fail with a `RangeError` or return
`min` deterministically).  The code instead panics for all four integer
kinds: `rand.Int31n`/`rand.Int63n` panic on a zero argument, and the
unsigned branches take a modulus by zero — whatever the generator
draws. -/
theorem randomize_zero_width_panics (draw : Nat) :
    randomize draw ("sig") ("int32") ("5") ("5") = RandResult.panics ∧
    randomize draw ("sig") ("int64") ("5") ("5") = RandResult.panics ∧
    randomize draw ("sig") ("uint32") ("7") ("7") = RandResult.panics ∧
    randomize draw ("sig") ("uint64") ("7") ("7") = RandResult.panics := by
  refine ⟨?_, ?_, ?_, ?_⟩
  · have h5 : parseInt32 ("5") = some 5 := by decide
    rw [randomize, if_pos (Or.inl rfl)]
    simp only [randInt32, h5]
    rw [if_pos (by decide)]
  · have h5 : parseInt64 ("5") = some 5 := by decide
    rw [randomize, if_neg (by decide), if_pos rfl]
    simp only [randInt64, h5]
    rw [if_pos (by decide)]
  · have h7 : parseUint32 ("7") = some 7 := by decide
    rw [randomize, if_neg (by decide), if_neg (by decide), if_pos rfl]
    simp only [randUint32, h7]
    rw [if_pos (by decide)]
  · have h7 : parseUint64 ("7") = some 7 := by decide
    rw [randomize, if_neg (by decide), if_neg (by decide), if_neg (by decide), if_pos rfl]
    simp only [randUint64, h7]
    rw [if_pos (by decide)]

/-- C3, counterexample: an `int32` signal whose bounds both parse and
satisfy `min < max` on which `randomize` returns no mapping at all: at
`min = -2147483648`, `max = 2147483647` the width `max - min` overflows
`int32` to `-1` and `rand.Int31n` panics. -/
theorem randomize_int_overflow_counterexample :
    parsedIntBounds ("int32") ("-2147483648") ("2147483647") =
      some (-2147483648, 2147483647) ∧
    (-2147483648 : Int) < 2147483647 ∧
    randomize 0 ("x") ("int32") ("-2147483648") ("2147483647") = RandResult.panics := by
  decide

/-- C3, amended: for every integer-typed signal whose bounds parse as the
declared type with `min < max` **and whose width `max - min` fits the
declared signed type** (no extra condition for the unsigned types),
`randomize` returns the single-entry mapping `{name: v}` with
`min ≤ v < max`, for every generator draw. -/
theorem randomize_int_range_amended (draw : Nat) (name dt minS maxS : String) {mn mx : Int}
    (hb : parsedIntBounds dt minS maxS = some (mn, mx))
    (hlt : mn < mx) (hw : intWidthOk dt mn mx) :
    ∃ v : Int, mn ≤ v ∧ v < mx ∧
      randomize draw name dt minS maxS = RandResult.ok (name, mkIntVal dt v) := by
  unfold parsedIntBounds at hb
  split_ifs at hb with h1 h2 h3 h4
  · rw [Option.bind_eq_some] at hb
    obtain ⟨a, ha, hb⟩ := hb
    rw [Option.map_eq_some'] at hb
    obtain ⟨b, hbp, heq⟩ := hb
    injection heq with e1 e2
    subst e1; subst e2
    obtain ⟨v, hv1, hv2, hv3⟩ := randInt32_spec draw name minS maxS ha hbp hlt (hw.1 h1)
    refine ⟨v, hv1, hv2, ?_⟩
    rw [randomize, if_pos h1, hv3]
    simp only [mkIntVal]
    rw [if_pos h1]
  · rw [Option.bind_eq_some] at hb
    obtain ⟨a, ha, hb⟩ := hb
    rw [Option.map_eq_some'] at hb
    obtain ⟨b, hbp, heq⟩ := hb
    injection heq with e1 e2
    subst e1; subst e2
    obtain ⟨v, hv1, hv2, hv3⟩ := randInt64_spec draw name minS maxS ha hbp hlt (hw.2 h2)
    refine ⟨v, hv1, hv2, ?_⟩
    rw [randomize, if_neg h1, if_pos h2, hv3]
    simp only [mkIntVal]
    rw [if_neg h1, if_pos h2]
  · rw [Option.bind_eq_some] at hb
    obtain ⟨a, ha, hb⟩ := hb
    rw [Option.map_eq_some'] at hb
    obtain ⟨b, hbp, heq⟩ := hb
    injection heq with e1 e2
    subst e1; subst e2
    obtain ⟨w, hw1, hw2, hw3⟩ :=
      randUint32_spec draw name minS maxS ha hbp (by exact_mod_cast hlt)
    refine ⟨(w : Int), by exact_mod_cast hw1, by exact_mod_cast hw2, ?_⟩
    rw [randomize, if_neg h1, if_neg h2, if_pos h3, hw3]
    simp only [mkIntVal]
    rw [if_neg h1, if_neg h2, if_pos h3, Int.toNat_natCast]
  · rw [Option.bind_eq_some] at hb
    obtain ⟨a, ha, hb⟩ := hb
    rw [Option.map_eq_some'] at hb
    obtain ⟨b, hbp, heq⟩ := hb
    injection heq with e1 e2
    subst e1; subst e2
    obtain ⟨w, hw1, hw2, hw3⟩ :=
      randUint64_spec draw name minS maxS ha hbp (by exact_mod_cast hlt)
    refine ⟨(w : Int), by exact_mod_cast hw1, by exact_mod_cast hw2, ?_⟩
    rw [randomize, if_neg h1, if_neg h2, if_neg h3, if_pos h4, hw3]
    simp only [mkIntVal]
    rw [if_neg h1, if_neg h2, if_neg h3, Int.toNat_natCast]

/-- C3, witness: the amended theorem applied to the `int32` signal with
bounds `"0"`, `"100"` and draw 7. -/
theorem randomize_int_range_witness :
    parsedIntBounds ("int32") ("0") ("100") = some (0, 100) ∧
    (0 : Int) < 100 ∧ intWidthOk ("int32") 0 100 ∧
    (∃ v : Int, 0 ≤ v ∧ v < 100 ∧
      randomize 7 ("Speed") ("int32") ("0") ("100") =
        RandResult.ok ("Speed", mkIntVal ("int32") v)) :=
  ⟨by decide, by decide, by decide,
    randomize_int_range_amended 7 ("Speed") ("int32") ("0") ("100")
      (by decide) (by decide) (by decide)⟩

/-- C4, counterexample: the claim allows `min ≤ max` and asserts the
returned value satisfies `v < max`; at `min = max = 1` (a case with no
rounding at all, so exact even in IEEE arithmetic) the code returns
exactly `v = 1 = max`, not `v < max`. -/
theorem randomize_float_equal_bounds_counterexample :
    parseFloatQ ("1") = some 1 ∧ (1 : ℚ) ≤ 1 ∧
    randomize 0 ("x") ("float64") ("1") ("1") = RandResult.ok ("x", SigValue.f64 1) ∧
    ¬ (1 : ℚ) < 1 := by
  refine ⟨by decide, le_refl 1, ?_, lt_irrefl 1⟩
  have h1 : parseFloatQ ("1") = some 1 := by decide
  rw [randomize, if_neg (by decide), if_neg (by decide), if_neg (by decide),
    if_neg (by decide), if_neg (by decide), if_pos (by decide)]
  simp only [randFloat64, h1]
  norm_num

/-- C4, amended: for every float-typed signal (`float32` or `float64`)
whose bounds parse and satisfy `min < max` (strictly), `randomize` computes
its value by the exact formula `v = min + u * (max - min)` with a uniform
draw `u ∈ [0, 1)`, so `min ≤ v < max`, returned as the single-entry mapping
`{name: v}` (float arithmetic modelled exactly over `ℚ`). -/
theorem randomize_float_range_amended (draw : Nat) (name dt minS maxS : String) {mn mx : ℚ}
    (hdt : dt = "float32" ∨ dt = "float64")
    (hmin : parseFloatQ minS = some mn) (hmax : parseFloatQ maxS = some mx)
    (hlt : mn < mx) :
    ∃ u v : ℚ, 0 ≤ u ∧ u < 1 ∧ v = mn + u * (mx - mn) ∧ mn ≤ v ∧ v < mx ∧
      randomize draw name dt minS maxS = RandResult.ok (name, mkFloatVal dt v) := by
  rcases hdt with rfl | rfl
  · obtain ⟨u, v, h1, h2, h3, h4, h5, h6⟩ := randFloat32_spec draw name minS maxS hmin hmax hlt
    refine ⟨u, v, h1, h2, h3, h4, h5, ?_⟩
    rw [randomize, if_neg (by decide), if_neg (by decide), if_neg (by decide),
      if_neg (by decide), if_pos (by decide), h6]
    simp only [mkFloatVal]
    rw [if_pos (by decide)]
  · obtain ⟨u, v, h1, h2, h3, h4, h5, h6⟩ := randFloat64_spec draw name minS maxS hmin hmax hlt
    refine ⟨u, v, h1, h2, h3, h4, h5, ?_⟩
    rw [randomize, if_neg (by decide), if_neg (by decide), if_neg (by decide),
      if_neg (by decide), if_neg (by decide), if_pos (by decide), h6]
    simp only [mkFloatVal]
    rw [if_neg (by decide)]

/-- C4, witness: the amended theorem applied to the `float64` signal with
bounds `"0"`, `"2"` and draw 5. -/
theorem randomize_float_range_witness :
    parseFloatQ ("0") = some 0 ∧ parseFloatQ ("2") = some 2 ∧ (0 : ℚ) < 2 ∧
    (∃ u v : ℚ, 0 ≤ u ∧ u < 1 ∧ v = 0 + u * (2 - 0) ∧ 0 ≤ v ∧ v < 2 ∧
      randomize 5 ("Temp") ("float64") ("0") ("2") =
        RandResult.ok ("Temp", mkFloatVal ("float64") v)) :=
  ⟨by decide, by decide, by norm_num,
    randomize_float_range_amended 5 ("Temp") ("float64") ("0") ("2")
      (Or.inr rfl) (by decide) (by decide) (by norm_num)⟩

/-- C5, counterexample: the claim says a failed re-decode publishes no
tuple that cycle; in the source the warn branch has no `return` or
`continue`, so the tick still sends a tuple (the still-empty map) on the
consumer channel. -/
theorem emission_decode_publishes_counterexample :
    (emissionTick (Except.error ("unexpected end of JSON input"))).warned = true ∧
    (emissionTick (Except.error ("unexpected end of JSON input"))).emitted ≠ none := by
  exact ⟨rfl, by simp [emissionTick]⟩

/-- C5, amended: in every emission tick whose stored slot fails to decode,
the failure is logged, a tuple carrying the (still-empty) partially-decoded
mapping **is still published** on the output channel, and the loop
continues to the next tick. -/
theorem emission_decode_failure_amended (e : String) :
    (emissionTick (Except.error e)).warned = true ∧
    (emissionTick (Except.error e)).emitted = some [] ∧
    (emissionTick (Except.error e)).continues = true :=
  ⟨rfl, rfl, rfl⟩

/-- C6, counterexample: `"float"` is not one of the six enumerated kinds,
yet `randomize` does not fail with the unsupported-type error — the Go
`switch` also accepts the aliases `sint32`, `float` and `double`. -/
theorem randomize_alias_types_counterexample :
    ("float" ∉ enumeratedSixKinds) ∧
    randomize 0 ("x") ("float") ("0") ("1") = RandResult.ok ("x", SigValue.f32 0) := by
  refine ⟨by decide, ?_⟩
  have h0 : parseFloatQ ("0") = some 0 := by decide
  have h1 : parseFloatQ ("1") = some 1 := by decide
  rw [randomize, if_neg (by decide), if_neg (by decide), if_neg (by decide),
    if_neg (by decide), if_pos (by decide)]
  simp only [randFloat32, h0, h1]
  norm_num

/-- C6, amended: `randomize` fails with the unsupported-type error exactly
outside the **nine** strings the switch accepts (`int32`, `sint32`,
`int64`, `uint32`, `uint64`, `float`, `float32`, `double`, `float64`), and
for each of the six enumerated kinds it never takes the unsupported-type
branch. -/
theorem randomize_unsupported_amended (draw : Nat) (name minS maxS dt : String) :
    (dt ∉ acceptedDataTypes → randomize draw name dt minS maxS = RandResult.unsupported dt) ∧
    (dt ∈ enumeratedSixKinds →
      ∀ d, randomize draw name dt minS maxS ≠ RandResult.unsupported d) := by
  constructor
  · intro h
    simp only [acceptedDataTypes, List.mem_cons, List.not_mem_nil, or_false] at h
    push_neg at h
    obtain ⟨h1, h2, h3, h4, h5, h6, h7, h8, h9⟩ := h
    rw [randomize, if_neg (by tauto), if_neg h3, if_neg h4, if_neg h5,
      if_neg (by tauto), if_neg (by tauto)]
  · intro hmem d
    simp only [enumeratedSixKinds, List.mem_cons, List.not_mem_nil, or_false] at hmem
    rcases hmem with rfl | rfl | rfl | rfl | rfl | rfl
    · rw [randomize, if_pos (Or.inl rfl)]
      exact randInt32_ne_unsupported draw name minS maxS d
    · rw [randomize, if_neg (by decide), if_pos rfl]
      exact randInt64_ne_unsupported draw name minS maxS d
    · rw [randomize, if_neg (by decide), if_neg (by decide), if_pos rfl]
      exact randUint32_ne_unsupported draw name minS maxS d
    · rw [randomize, if_neg (by decide), if_neg (by decide), if_neg (by decide), if_pos rfl]
      exact randUint64_ne_unsupported draw name minS maxS d
    · rw [randomize, if_neg (by decide), if_neg (by decide), if_neg (by decide),
        if_neg (by decide), if_pos (Or.inr rfl)]
      exact randFloat32_ne_unsupported draw name minS maxS d
    · rw [randomize, if_neg (by decide), if_neg (by decide), if_neg (by decide),
        if_neg (by decide), if_neg (by decide), if_pos (Or.inr rfl)]
      exact randFloat64_ne_unsupported draw name minS maxS d

/-- C6, witness: the amended theorem applied to the unknown kind
`"bogus"`. -/
theorem randomize_unsupported_witness :
    ("bogus" ∉ acceptedDataTypes) ∧
    randomize 0 ("x") ("bogus") ("0") ("1") = RandResult.unsupported ("bogus") :=
  ⟨by decide, (randomize_unsupported_amended 0 ("x") ("0") ("1") ("bogus")).1 (by decide)⟩

/-- C7: any successfully decoded configuration containing a signal with
`cyclicTime ≤ 0` is rejected by `Configure` with a `ConfigError` (the
validation loop stops at the first failing check of the first failing
signal, so the error may name a different check, but `Configure` never
returns success). -/
theorem configure_cyclic_time_rejected (cfg : canSignalSourceConfig)
    (h : ∃ v ∈ cfg.Signal, v.CyclicTime ≤ 0) : Configure cfg ≠ ConfigResult.ok := by
  intro hok
  obtain ⟨v, hv, hle⟩ := h
  obtain ⟨h1, _, _⟩ := validateSignals_mem_ok hok v hv
  omega

/-- C7, witness: the theorem applied to a one-signal configuration with
`cyclicTime = 0`. -/
theorem configure_cyclic_time_witness :
    (∃ v ∈ cfgZeroCyclic.Signal, v.CyclicTime ≤ 0) ∧
    Configure cfgZeroCyclic ≠ ConfigResult.ok :=
  ⟨by decide, configure_cyclic_time_rejected cfgZeroCyclic (by decide)⟩

/-- C8: any successfully decoded configuration containing a signal with
`changeTime < 0` is rejected by `Configure`; and `changeTime = 0` is
accepted — `Configure` succeeds whenever every signal passes the three
checks, whose changeTime check only demands `0 ≤ changeTime`. -/
theorem configure_change_time_policy (cfg : canSignalSourceConfig) :
    ((∃ v ∈ cfg.Signal, v.ChangeTime < 0) → Configure cfg ≠ ConfigResult.ok) ∧
    ((∀ v ∈ cfg.Signal, 0 < v.CyclicTime ∧ 0 ≤ v.ChangeTime ∧
        goStringLt v.MaxValuePhy v.MinValuePhy = false) →
      Configure cfg = ConfigResult.ok) := by
  constructor
  · rintro ⟨v, hv, hlt⟩ hok
    obtain ⟨_, h2, _⟩ := validateSignals_mem_ok hok v hv
    omega
  · exact validateSignals_ok_of

/-- C8, witness: the theorem applied to a valid one-signal configuration
with `changeTime = 0` (accepted) and to one with `changeTime = -1`
(rejected). -/
theorem configure_change_time_witness :
    Configure cfgZeroChange = ConfigResult.ok ∧
    Configure cfgNegChange ≠ ConfigResult.ok :=
  ⟨(configure_change_time_policy cfgZeroChange).2 (by decide),
    (configure_change_time_policy cfgNegChange).1 (by decide)⟩

/-- C9: `Close` is idempotent: on every source state it returns `nil` and
leaves the state untouched, so a second `Close` (and any further one)
returns `nil` with the same absent effect. -/
theorem close_idempotent (s : canSignalSource) :
    Close s = (s, none) ∧ (Close s).2 = none ∧
    Close (Close s).1 = (s, none) ∧ (Close (Close s).1).2 = none :=
  ⟨rfl, rfl, rfl, rfl⟩

/-- C10: `Open` allocates the slot array with fixed length 100 regardless
of the number of configured signals, so the sequence of per-signal stores
`s.list[k] = ns` stays in bounds exactly when the configuration holds at
most 100 signals; with more than 100 signals the store at index `k = 100`
is out of bounds. -/
theorem open_store_capacity (encodedValues : List (List Nat)) :
    (openInitialStores encodedValues).isSome = true ↔ encodedValues.length ≤ 100 := by
  unfold openInitialStores
  rw [storeAll_isSome_iff]
  simp only [List.length_set, List.length_replicate]
  omega

end CanSignal
